import Mathlib

/-!
Shallow embedding of `pkg/services/accesscontrol/resolvers.go` (grafana):
the scope-resolver registry, its TTL cache, the scope-mutator factory and
the action-expansion factory.

Modelling conventions:
* Go `int64` org ids become `Int` (no arithmetic is performed on them, only
  decimal formatting, so overflow is irrelevant).
* Time is a `Nat` of nanoseconds (Go `time.Duration` units); the external
  cache's get/set-with-expiry semantics are modelled explicitly with a `now`
  instant threaded through each call.
* The Go map `map[string]ScopeAttributeResolver` is an association list with
  overwrite-on-insert, which matches Go map assignment and lookup.
* A `ScopeAttributeResolver` is modelled as a pure function of `(orgID, scope)`
  returning either an error (an opaque `String`) or a list of scopes; the Go
  `context.Context` argument is only passed through by this file's code and is
  dropped.
* Logging (`log.Logger`) is an effect-free external collaborator and is dropped.
* The function closed over by `GetScopeAttributeMutator` additionally returns
  the cache state after the call and the number of resolver invocations the
  call performed, so that "no cache write" and "does not invoke the resolver"
  are stated directly.
-/

namespace AccessControl

/-- Decimal digit character, code 48 + d for d < 10 (as Go `fmt` renders digits). -/
def digitChar (d : Nat) : Char := Char.ofNat (48 + d)

/-- Big-endian decimal digits of `n`, with explicit fuel (`natDigitsAux n n`
computes the digits of `n`; `n = 0` yields `[]`). -/
def natDigitsAux : Nat → Nat → List Char
  | 0, _ => []
  | fuel+1, n => if n = 0 then [] else natDigitsAux fuel (n / 10) ++ [digitChar (n % 10)]

/-- Decimal rendering of a natural number, as Go `fmt` `%v` renders a
non-negative `int64`. -/
def natRepr (n : Nat) : String := if n = 0 then "0" else String.mk (natDigitsAux n n)

/-- Go `fmt` `%v` rendering of an `int64`. -/
def intRepr (i : Int) : String := if i < 0 then "-" ++ natRepr i.natAbs else natRepr i.toNat

/-- The external `localcache.CacheService`: per-entry expiration instants plus
the two construction parameters (default TTL and background cleanup interval). -/
structure CacheService where
  defaultExpiration : Nat
  cleanupInterval : Nat
  items : List (String × List String × Nat)
deriving Repr

/-- `localcache.New(defaultExpiration, cleanupInterval)`: an empty cache
remembering its construction parameters. -/
def localcacheNew (defaultExpiration cleanupInterval : Nat) : CacheService :=
  { defaultExpiration := defaultExpiration, cleanupInterval := cleanupInterval, items := [] }

/-- Go-map assignment `m[k] = v`: overwrite the binding of `k` if present,
otherwise add it. -/
def mapSet {α : Type} : List (String × α) → String → α → List (String × α)
  | [], k, v => [(k, v)]
  | (k', v') :: rest, k, v =>
    if k' = k then (k, v) :: rest else (k', v') :: mapSet rest k v

/-- Go-map lookup `v, ok := m[k]`. -/
def mapGet {α : Type} : List (String × α) → String → Option α
  | [], _ => none
  | (k', v') :: rest, k => if k' = k then some v' else mapGet rest k

/-- `cache.Get(key)` at instant `now`: a value is returned only while its
entry is unexpired. -/
def cacheGet (c : CacheService) (now : Nat) (key : String) : Option (List String) :=
  match mapGet c.items key with
  | some (v, expiration) => if now < expiration then some v else none
  | none => none

/-- `cache.Set(key, v, ttl)` at instant `now`: store `v` under `key`, expiring
at `now + ttl`. -/
def cacheSet (c : CacheService) (now : Nat) (key : String) (v : List String)
    (ttl : Nat) : CacheService :=
  { c with items := mapSet c.items key (v, now + ttl) }

/-- `ScopeAttributeResolver.Resolve(ctx, orgID, scope)`, as a pure function
(the context is only passed through by the registry). -/
def ScopeAttributeResolver : Type := Int → String → Except String (List String)

/-- The `ActionResolver` capability. Only `ResolveAction` is consumed by this
file's code (`ExpandActionSets` operates on the external `Permission` type and
is never invoked here). -/
structure ActionResolver where
  resolveAction : String → List String
  resolveActionSet : String → List String

/-- The `Resolvers` registry (the `log` field, an external logger, is dropped). -/
structure Resolvers where
  cache : CacheService
  attributeResolvers : List (String × ScopeAttributeResolver)
  actionResolver : Option ActionResolver

/-- One second, in nanoseconds (Go `time.Second`). -/
def second : Nat := 1000000000

/-- One minute, in nanoseconds (Go `time.Minute`). -/
def minute : Nat := 60 * second

/-- `ttl = 30 * time.Second`. -/
def ttl : Nat := 30 * second

/-- `cleanInterval = 2 * time.Minute`. -/
def cleanInterval : Nat := 2 * minute

/-- `NewResolvers(log)`. -/
def NewResolvers : Resolvers :=
  { cache := localcacheNew ttl cleanInterval
    attributeResolvers := []
    actionResolver := none }

/-- `(*Resolvers).AddScopeAttributeResolver(prefix, resolver)`. -/
def addScopeAttributeResolver (s : Resolvers) (pfx : String)
    (resolver : ScopeAttributeResolver) : Resolvers :=
  { s with attributeResolvers := mapSet s.attributeResolvers pfx resolver }

/-- `(*Resolvers).SetActionResolver(resolver)`. -/
def setActionResolver (s : Resolvers) (resolver : ActionResolver) : Resolvers :=
  { s with actionResolver := some resolver }

/-- `getScopeCacheKey(orgID, scope) = fmt.Sprintf("%s-%v", scope, orgID)`. -/
def getScopeCacheKey (orgID : Int) (scope : String) : String :=
  scope ++ "-" ++ intRepr orgID

/-- The leading characters of a scope spanning its first `k` colon-separated
segments, without a trailing colon (helper for the prefix-extraction rule). -/
def scopePrefixAux : Nat → List Char → List Char
  | _, [] => []
  | k+1, c :: rest =>
    if c = ':' then
      if k = 0 then [] else ':' :: scopePrefixAux k rest
    else c :: scopePrefixAux (k+1) rest
  | 0, _ :: _ => []

/-- Modelled from the spec: the shared prefix-extraction rule (`ScopePrefix`,
defined in the repository outside the provided sources). Per the spec, a scope
is a prefix (resource family and attribute) followed by an identifier value,
e.g. the scope "dashboards:id:1" has prefix "dashboards:id:": the prefix is
the first two colon-separated segments joined by ":", with ":" appended. -/
def ScopePrefix (scope : String) : String :=
  String.mk (scopePrefixAux 2 scope.data) ++ ":"

/-- Errors produced by the scope mutator: the repository's `ErrResolverNotFound`
value, and the wrapping `fmt.Errorf("could not resolve %v: %w", scope, err)`. -/
inductive ResolverError where
  | errResolverNotFound : ResolverError
  | couldNotResolve (scope : String) (wrapped : String) : ResolverError
deriving DecidableEq, Repr

/-- The closure returned by `(*Resolvers).GetScopeAttributeMutator(orgID)`,
applied to one `scope` at instant `now`. Besides the Go return value it yields
the cache state after the call and the number of resolver invocations made. -/
def getScopeAttributeMutator (s : Resolvers) (orgID : Int) (now : Nat)
    (scope : String) : Except ResolverError (List String) × CacheService × Nat :=
  match cacheGet s.cache now (getScopeCacheKey orgID scope) with
  | some scopes => (Except.ok scopes, s.cache, 0)
  | none =>
    match mapGet s.attributeResolvers ( ScopePrefix scope) with
    | some resolver =>
      match resolver orgID scope with
      | Except.error err =>
        (Except.error (ResolverError.couldNotResolve scope err), s.cache, 1)
      | Except.ok scopes =>
        (Except.ok scopes,
         cacheSet s.cache now (getScopeCacheKey orgID scope) scopes ttl, 1)
    | none => (Except.error ResolverError.errResolverNotFound, s.cache, 0)

/-- The closure returned by `(*Resolvers).GetActionSetResolver()`, applied to
one `action` (the context argument is unused by the Go code). -/
def getActionSetResolver (s : Resolvers) (action : String) : List String :=
  match s.actionResolver with
  | none => [action]
  | some resolver => resolver.resolveAction action ++ [action]

/-- A sequence of `AddScopeAttributeResolver` calls applied in order. -/
def applyRegistrations (s : Resolvers) : List (String × ScopeAttributeResolver) → Resolvers
  | [] => s
  | (p, r) :: rest => applyRegistrations (addScopeAttributeResolver s p r) rest

/-- Value of a decimal digit string (left inverse of `natDigitsAux`). -/
def decodeDigits (l : List Char) : Nat := l.foldl (fun a c => 10 * a + (c.toNat - 48)) 0

/-! ### Concrete example data, used by the witness theorems.

The scenario of spec §8: a resolver for prefix "dashboards:id:" that maps
"dashboards:id:1" to ["dashboards:uid:abc", "folders:uid:xyz"] and fails on
any other scope, and an action resolver mapping every action to
["dashboards:view"]. -/

/-- Example scope resolver: succeeds only on "dashboards:id:1". -/
def dashboardsResolver : ScopeAttributeResolver :=
  fun _ scope =>
    if scope = "dashboards:id:1" then
      Except.ok ["dashboards:uid:abc", "folders:uid:xyz"]
    else Except.error "dashboard not found"

/-- Example registry holding only `dashboardsResolver`. -/
def exampleRegistry : Resolvers :=
  addScopeAttributeResolver NewResolvers "dashboards:id:" dashboardsResolver

/-- Example registry whose cache already holds a resolution for org 7 and
scope "dashboards:id:1", expiring at instant 100. -/
def cachedRegistry : Resolvers :=
  { cache :=
      { defaultExpiration := ttl, cleanupInterval := cleanInterval,
        items := [(getScopeCacheKey 7 "dashboards:id:1",
                   ["dashboards:uid:abc", "folders:uid:xyz"], 100)] }
    attributeResolvers := exampleRegistry.attributeResolvers
    actionResolver := none }

/-- Example action resolver: every action expands to ["dashboards:view"]. -/
def viewActionResolver : ActionResolver :=
  { resolveAction := fun _ => ["dashboards:view"]
    resolveActionSet := fun _ => [] }

/-- Example action resolver whose `ResolveAction` always returns the empty list. -/
def emptyActionResolver : ActionResolver :=
  { resolveAction := fun _ => []
    resolveActionSet := fun _ => [] }

/-! ### Helper lemmas -/

lemma digitChar_toNat (d : Nat) (h : d < 10) : (digitChar d).toNat = 48 + d := by
  interval_cases d <;> rfl

lemma digitChar_ne_dash (d : Nat) (h : d < 10) : digitChar d ≠ '-' := by
  interval_cases d <;> decide

lemma natDigitsAux_ne_dash (fuel : Nat) : ∀ n, ∀ c ∈ natDigitsAux fuel n, c ≠ '-' := by
  induction fuel with
  | zero => intro n c hc; simp [natDigitsAux] at hc
  | succ fuel ih =>
    intro n c hc
    by_cases hn : n = 0
    · simp [natDigitsAux, hn] at hc
    · simp [natDigitsAux, hn, List.mem_append] at hc
      rcases hc with hc | hc
      · exact ih _ c hc
      · subst hc; exact digitChar_ne_dash _ (Nat.mod_lt _ (by norm_num))

lemma decode_natDigitsAux (fuel : Nat) :
    ∀ n, n ≤ fuel → decodeDigits (natDigitsAux fuel n) = n := by
  induction fuel with
  | zero => intro n hn; interval_cases n; rfl
  | succ fuel ih =>
    intro n hn
    by_cases h0 : n = 0
    · subst h0; rfl
    · have hdiv : n / 10 ≤ fuel := by
        have : n / 10 < n := Nat.div_lt_self (Nat.pos_of_ne_zero h0) (by norm_num)
        omega
      have hmod : n % 10 < 10 := Nat.mod_lt _ (by norm_num)
      simp only [natDigitsAux, h0, if_false]
      unfold decodeDigits
      rw [List.foldl_append]
      have hih := ih (n / 10) hdiv
      unfold decodeDigits at hih
      rw [hih]
      simp [digitChar_toNat _ hmod]
      omega

lemma decode_natRepr (n : Nat) : decodeDigits (natRepr n).data = n := by
  by_cases h0 : n = 0
  · subst h0; rfl
  · simp only [natRepr, h0, if_false]
    exact decode_natDigitsAux n n le_rfl

lemma natRepr_inj {m n : Nat} (h : natRepr m = natRepr n) : m = n := by
  have := congrArg (fun s => decodeDigits s.data) h
  simpa [decode_natRepr] using this

lemma natRepr_ne_dash (n : Nat) : ∀ c ∈ (natRepr n).data, c ≠ '-' := by
  by_cases h0 : n = 0
  · subst h0; intro c hc; simp [natRepr] at hc; subst hc; decide
  · simp only [natRepr, h0, if_false]
    exact natDigitsAux_ne_dash n n

lemma intRepr_nonneg (i : Int) (h : 0 ≤ i) : intRepr i = natRepr i.toNat := by
  simp [intRepr, not_lt.mpr h]

lemma splitLastDash : ∀ (a1 : List Char) (b1 : List Char) (a2 : List Char) (b2 : List Char),
    (∀ c ∈ a1, c ≠ '-') → (∀ c ∈ a2, c ≠ '-') →
    a1 ++ '-' :: b1 = a2 ++ '-' :: b2 → a1 = a2 ∧ b1 = b2 := by
  intro a1
  induction a1 with
  | nil =>
    intro b1 a2 b2 _ h2 h
    cases a2 with
    | nil => simpa using h
    | cons c t =>
      simp at h
      exact absurd h.1.symm (h2 c (by simp))
  | cons c1 t1 ih =>
    intro b1 a2 b2 h1 h2 h
    cases a2 with
    | nil =>
      simp at h
      exact absurd h.1 (h1 c1 (by simp))
    | cons c2 t2 =>
      simp at h
      obtain ⟨hc, ht⟩ := h
      obtain ⟨ht12, hb⟩ :=
        ih b1 t2 b2 (fun c hc => h1 c (by simp [hc])) (fun c hc => h2 c (by simp [hc])) ht
      subst hc; subst ht12; subst hb
      exact ⟨rfl, rfl⟩

lemma string_ext {s t : String} (h : s.data = t.data) : s = t := congrArg String.mk h

lemma mapGet_mapSet {α : Type} (m : List (String × α)) (k : String) (v : α) :
    mapGet (mapSet m k v) k = some v := by
  induction m with
  | nil => simp [mapSet, mapGet]
  | cons kv rest ih =>
    obtain ⟨k', v'⟩ := kv
    by_cases h : k' = k
    · simp [mapSet, mapGet, h]
    · simp [mapSet, mapGet, h, ih]

lemma mapSet_keys_mem {α : Type} (m : List (String × α)) (k : String) (v : α) (x : String) :
    x ∈ (mapSet m k v).map Prod.fst ↔ (x = k ∨ x ∈ m.map Prod.fst) := by
  induction m with
  | nil => simp [mapSet]
  | cons kv rest ih =>
    obtain ⟨k', v'⟩ := kv
    by_cases h : k' = k
    · subst h; simp [mapSet]
    · simp [mapSet, h, ih]
      tauto

lemma mapSet_keys_nodup {α : Type} (m : List (String × α)) (k : String) (v : α)
    (h : (m.map Prod.fst).Nodup) : ((mapSet m k v).map Prod.fst).Nodup := by
  induction m with
  | nil => simp [mapSet]
  | cons kv rest ih =>
    obtain ⟨k', v'⟩ := kv
    rw [List.map_cons, List.nodup_cons] at h
    by_cases hk : k' = k
    · subst hk
      simpa [mapSet, List.nodup_cons] using h
    · rw [show mapSet ((k', v') :: rest) k v = (k', v') :: mapSet rest k v by
        simp [mapSet, hk]]
      rw [List.map_cons, List.nodup_cons]
      refine ⟨?_, ih h.2⟩
      intro hmem
      rcases (mapSet_keys_mem rest k v k').mp hmem with h1 | h1
      · exact hk h1
      · exact h.1 h1

lemma applyRegistrations_nodup :
    ∀ (regs : List (String × ScopeAttributeResolver)) (s : Resolvers),
    (s.attributeResolvers.map Prod.fst).Nodup →
    ((applyRegistrations s regs).attributeResolvers.map Prod.fst).Nodup := by
  intro regs
  induction regs with
  | nil => intro s h; exact h
  | cons pr rest ih =>
    obtain ⟨p, r⟩ := pr
    intro s h
    exact ih _ (mapSet_keys_nodup _ _ _ h)

/-! ### Claims -/

/-- C1: for every organization id and scope string, if the cache holds an
unexpired entry for the (org, scope) key, the scope mutator returns exactly
the cached sequence with no error, invokes no registered resolver, and
performs no cache write. -/
theorem scope_mutator_cache_hit (s : Resolvers) (orgID : Int) (now : Nat)
    (scope : String) (cached : List String)
    (h : cacheGet s.cache now (getScopeCacheKey orgID scope) = some cached) :
    getScopeAttributeMutator s orgID now scope = (Except.ok cached, s.cache, 0) := by
  simp [getScopeAttributeMutator, h]

/-- C1 witness: org 7, scope "dashboards:id:1", with the pair already cached,
queried at instant 0 (before the expiry instant 100). -/
theorem scope_mutator_cache_hit_case :
    getScopeAttributeMutator cachedRegistry 7 0 "dashboards:id:1"
      = (Except.ok ["dashboards:uid:abc", "folders:uid:xyz"], cachedRegistry.cache, 0) :=
  scope_mutator_cache_hit cachedRegistry 7 0 "dashboards:id:1"
    ["dashboards:uid:abc", "folders:uid:xyz"] rfl

/-- C2: for every organization id and scope string, on a cache miss with a
resolver registered for the scope's prefix, if the resolver succeeds the scope
mutator returns exactly the resolver's sequence and stores that same sequence
in the cache under the (org, scope) key with the fixed 30-second TTL. -/
theorem scope_mutator_miss_resolves_and_caches (s : Resolvers) (orgID : Int)
    (now : Nat) (scope : String) (resolver : ScopeAttributeResolver)
    (scopes : List String)
    (hmiss : cacheGet s.cache now (getScopeCacheKey orgID scope) = none)
    (hres : mapGet s.attributeResolvers ( ScopePrefix scope) = some resolver)
    (hok : resolver orgID scope = Except.ok scopes) :
    getScopeAttributeMutator s orgID now scope
      = (Except.ok scopes,
         cacheSet s.cache now (getScopeCacheKey orgID scope) scopes ttl, 1)
    ∧ mapGet (getScopeAttributeMutator s orgID now scope).2.1.items
        (getScopeCacheKey orgID scope) = some (scopes, now + ttl)
    ∧ ttl = 30 * second := by
  have hmain : getScopeAttributeMutator s orgID now scope
      = (Except.ok scopes,
         cacheSet s.cache now (getScopeCacheKey orgID scope) scopes ttl, 1) := by
    simp [getScopeAttributeMutator, hmiss, hres, hok]
  refine ⟨hmain, ?_, rfl⟩
  rw [hmain]
  exact mapGet_mapSet s.cache.items (getScopeCacheKey orgID scope) (scopes, now + ttl)

/-- C2 witness: the spec §8 scenario — org 7, scope "dashboards:id:1", empty
cache, resolver registered for prefix "dashboards:id:". -/
theorem scope_mutator_miss_resolves_and_caches_case :
    getScopeAttributeMutator exampleRegistry 7 0 "dashboards:id:1"
      = (Except.ok ["dashboards:uid:abc", "folders:uid:xyz"],
         cacheSet exampleRegistry.cache 0 (getScopeCacheKey 7 "dashboards:id:1")
           ["dashboards:uid:abc", "folders:uid:xyz"] ttl, 1) :=
  (scope_mutator_miss_resolves_and_caches exampleRegistry 7 0 "dashboards:id:1"
    dashboardsResolver ["dashboards:uid:abc", "folders:uid:xyz"] rfl rfl rfl).1

/-- C4: for every organization id and scope string, on a cache miss with no
resolver registered for the scope's prefix, the scope mutator fails with the
`ErrResolverNotFound` error and performs no cache write. -/
theorem scope_mutator_resolver_not_found (s : Resolvers) (orgID : Int)
    (now : Nat) (scope : String)
    (hmiss : cacheGet s.cache now (getScopeCacheKey orgID scope) = none)
    (hnone : mapGet s.attributeResolvers ( ScopePrefix scope) = none) :
    getScopeAttributeMutator s orgID now scope
      = (Except.error ResolverError.errResolverNotFound, s.cache, 0) := by
  simp [getScopeAttributeMutator, hmiss, hnone]

/-- C4 witness: scope "users:id:3" has prefix "users:id:", for which
`exampleRegistry` holds no resolver. -/
theorem scope_mutator_resolver_not_found_case :
    getScopeAttributeMutator exampleRegistry 7 0 "users:id:3"
      = (Except.error ResolverError.errResolverNotFound, exampleRegistry.cache, 0) :=
  scope_mutator_resolver_not_found exampleRegistry 7 0 "users:id:3" rfl rfl

/-- C5: for every organization id and scope string, if the matched resolver
fails, the scope mutator returns an error wrapping the resolver's error and
naming the offending scope, the cache is not written, and a repeated call on
the resulting state invokes the resolver afresh (no cached failure). -/
theorem scope_mutator_resolver_error (s : Resolvers) (orgID : Int) (now : Nat)
    (scope : String) (resolver : ScopeAttributeResolver) (e : String)
    (hmiss : cacheGet s.cache now (getScopeCacheKey orgID scope) = none)
    (hres : mapGet s.attributeResolvers ( ScopePrefix scope) = some resolver)
    (herr : resolver orgID scope = Except.error e) :
    getScopeAttributeMutator s orgID now scope
      = (Except.error (ResolverError.couldNotResolve scope e), s.cache, 1)
    ∧ (getScopeAttributeMutator
        { s with cache := (getScopeAttributeMutator s orgID now scope).2.1 }
        orgID now scope).2.2 = 1 := by
  have hmain : getScopeAttributeMutator s orgID now scope
      = (Except.error (ResolverError.couldNotResolve scope e), s.cache, 1) := by
    simp [getScopeAttributeMutator, hmiss, hres, herr]
  have hsame : ({ s with cache := (getScopeAttributeMutator s orgID now scope).2.1 }
      : Resolvers) = s := by
    rw [hmain]
  refine ⟨hmain, ?_⟩
  rw [hsame, hmain]

/-- C5 witness: `dashboardsResolver` fails on scope "dashboards:id:2"; the
mutator wraps the failure, leaves the cache empty, and a repeat call invokes
the resolver again. -/
theorem scope_mutator_resolver_error_case :
    getScopeAttributeMutator exampleRegistry 7 0 "dashboards:id:2"
      = (Except.error
          (ResolverError.couldNotResolve "dashboards:id:2" "dashboard not found"),
         exampleRegistry.cache, 1)
    ∧ (getScopeAttributeMutator
        { exampleRegistry with
            cache := (getScopeAttributeMutator exampleRegistry 7 0 "dashboards:id:2").2.1 }
        7 0 "dashboards:id:2").2.2 = 1 :=
  scope_mutator_resolver_error exampleRegistry 7 0 "dashboards:id:2"
    dashboardsResolver "dashboard not found" rfl rfl rfl

/-- C3 counterexample: `getScopeCacheKey` is not injective over all `Int`
organization ids — scope "a" for org -5 and scope "a-" for org 5 both yield
the key "a--5", although neither the org ids nor the scopes agree. -/
theorem getScopeCacheKey_collision :
    getScopeCacheKey (-5) "a" = getScopeCacheKey 5 "a-"
    ∧ ¬(((-5 : Int) = 5) ∧ ("a" : String) = "a-") := by
  exact ⟨rfl, by decide⟩

/-- C3 (amended): the cache key derivation is injective on non-negative
organization ids — if `getScopeCacheKey o1 s1 = getScopeCacheKey o2 s2` with
`0 ≤ o1` and `0 ≤ o2`, then `o1 = o2` and `s1 = s2`. -/
theorem getScopeCacheKey_inj_of_nonneg (o1 o2 : Int) (s1 s2 : String)
    (ho1 : 0 ≤ o1) (ho2 : 0 ≤ o2)
    (h : getScopeCacheKey o1 s1 = getScopeCacheKey o2 s2) : o1 = o2 ∧ s1 = s2 := by
  have hd : s1.data ++ '-' :: (intRepr o1).data
      = s2.data ++ '-' :: (intRepr o2).data := by
    have := congrArg String.data h
    simpa [getScopeCacheKey, List.append_assoc] using this
  have hrev : (intRepr o1).data.reverse ++ '-' :: s1.data.reverse
      = (intRepr o2).data.reverse ++ '-' :: s2.data.reverse := by
    have := congrArg List.reverse hd
    simpa [List.reverse_append] using this
  have hnd1 : ∀ c ∈ (intRepr o1).data.reverse, c ≠ '-' := by
    intro c hc
    rw [List.mem_reverse] at hc
    rw [intRepr_nonneg o1 ho1] at hc
    exact natRepr_ne_dash _ c hc
  have hnd2 : ∀ c ∈ (intRepr o2).data.reverse, c ≠ '-' := by
    intro c hc
    rw [List.mem_reverse] at hc
    rw [intRepr_nonneg o2 ho2] at hc
    exact natRepr_ne_dash _ c hc
  obtain ⟨ha, hb⟩ := splitLastDash _ _ _ _ hnd1 hnd2 hrev
  have hrepr : intRepr o1 = intRepr o2 := string_ext (List.reverse_injective ha)
  have hnat : o1.toNat = o2.toNat := by
    apply natRepr_inj
    rw [← intRepr_nonneg o1 ho1, ← intRepr_nonneg o2 ho2]
    exact hrepr
  exact ⟨by omega, string_ext (List.reverse_injective hb)⟩

/-- C3 witness: the amended injectivity applied at org 7, scope
"dashboards:id:1" on both sides. -/
theorem getScopeCacheKey_inj_of_nonneg_case :
    (7 : Int) = 7 ∧ ("dashboards:id:1" : String) = "dashboards:id:1" :=
  getScopeCacheKey_inj_of_nonneg 7 7 "dashboards:id:1" "dashboards:id:1"
    (by decide) (by decide) rfl

/-- C6: with no action resolver installed the action-set resolver returns
exactly `[action]`; with a resolver installed it returns the resolver's
`ResolveAction` result followed by the original action, in that order and
without deduplication. -/
theorem action_set_resolver_spec (s : Resolvers) (action : String) :
    (s.actionResolver = none → getActionSetResolver s action = [action])
    ∧ ∀ r : ActionResolver, s.actionResolver = some r →
        getActionSetResolver s action = r.resolveAction action ++ [action] := by
  constructor
  · intro h; simp [getActionSetResolver, h]
  · intro r h; simp [getActionSetResolver, h]

/-- C6 witness: no resolver gives ["dashboards:read"]; a resolver expanding
every action to ["dashboards:view"] gives
["dashboards:view", "dashboards:read"] in that order. -/
theorem action_set_resolver_spec_case :
    getActionSetResolver NewResolvers "dashboards:read" = ["dashboards:read"]
    ∧ getActionSetResolver (setActionResolver NewResolvers viewActionResolver)
        "dashboards:read" = ["dashboards:view", "dashboards:read"] := by
  constructor
  · exact (action_set_resolver_spec NewResolvers "dashboards:read").1 rfl
  · have h := (action_set_resolver_spec
      (setActionResolver NewResolvers viewActionResolver) "dashboards:read").2
      viewActionResolver rfl
    simpa [viewActionResolver] using h

/-- C7: `AddScopeAttributeResolver` is total and registers under any prefix
string without validation; registering A then B under the same prefix leaves
lookup returning B (last-write-wins); and every sequence of registrations
applied to `NewResolvers` leaves at most one resolver per prefix. -/
theorem add_resolver_last_write_wins (s : Resolvers) (pfx : String)
    (a b : ScopeAttributeResolver) :
    (∀ (p : String) (r : ScopeAttributeResolver),
        mapGet (addScopeAttributeResolver s p r).attributeResolvers p = some r)
    ∧ mapGet (addScopeAttributeResolver
        (addScopeAttributeResolver s pfx a) pfx b).attributeResolvers pfx = some b
    ∧ ∀ regs : List (String × ScopeAttributeResolver),
        ((applyRegistrations NewResolvers regs).attributeResolvers.map Prod.fst).Nodup := by
  refine ⟨?_, ?_, ?_⟩
  · intro p r; exact mapGet_mapSet _ _ _
  · exact mapGet_mapSet _ _ _
  · intro regs
    exact applyRegistrations_nodup regs NewResolvers (by simp [NewResolvers])

/-- C9: the cache entry TTL is exactly 30 seconds and the cleanup interval
exactly 2 minutes; the cleanup interval is strictly longer than the TTL;
`NewResolvers` constructs its cache with these constants; and every cache
write the scope mutator performs uses the `ttl` constant. -/
theorem resolver_cache_constants :
    ttl = 30 * second ∧ cleanInterval = 2 * minute ∧ ttl < cleanInterval
    ∧ NewResolvers.cache = localcacheNew ttl cleanInterval
    ∧ NewResolvers.cache.defaultExpiration = ttl
    ∧ NewResolvers.cache.cleanupInterval = cleanInterval
    ∧ ∀ (s : Resolvers) (orgID : Int) (now : Nat) (scope : String),
        (getScopeAttributeMutator s orgID now scope).2.1 = s.cache
        ∨ ∃ scopes : List String,
            (getScopeAttributeMutator s orgID now scope).2.1
              = cacheSet s.cache now (getScopeCacheKey orgID scope) scopes ttl := by
  refine ⟨rfl, rfl, by norm_num [ttl, cleanInterval, second, minute], rfl, rfl, rfl, ?_⟩
  intro s orgID now scope
  rcases hc : cacheGet s.cache now (getScopeCacheKey orgID scope) with _ | v
  · rcases hr : mapGet s.attributeResolvers ( ScopePrefix scope) with _ | resolver
    · left; simp [getScopeAttributeMutator, hc, hr]
    · rcases he : resolver orgID scope with e | scopes
      · left; simp [getScopeAttributeMutator, hc, hr, he]
      · right; exact ⟨scopes, by simp [getScopeAttributeMutator, hc, hr, he]⟩
  · left; simp [getScopeAttributeMutator, hc]

/-- C10: for every action and registry state the action-set resolver's result
is non-empty with the input action as its last element, and an installed
resolver whose `ResolveAction` returns the empty list yields exactly
`[action]`, identical to the uninstalled case. -/
theorem action_set_resolver_last_is_action (s : Resolvers) (action : String) :
    getActionSetResolver s action ≠ []
    ∧ (getActionSetResolver s action).getLast? = some action
    ∧ ∀ r : ActionResolver, s.actionResolver = some r →
        r.resolveAction action = [] → getActionSetResolver s action = [action] := by
  refine ⟨?_, ?_, ?_⟩
  · cases h : s.actionResolver with
    | none => simp [getActionSetResolver, h]
    | some r => simp [getActionSetResolver, h]
  · cases h : s.actionResolver with
    | none => simp [getActionSetResolver, h]
    | some r => simp [getActionSetResolver, h]
  · intro r h hempty
    simp [getActionSetResolver, h, hempty]

/-- C10 witness: an installed action resolver returning the empty list for
"dashboards:read" yields exactly ["dashboards:read"], with last element the
action itself. -/
theorem action_set_resolver_last_is_action_case :
    getActionSetResolver (setActionResolver NewResolvers emptyActionResolver)
      "dashboards:read" = ["dashboards:read"]
    ∧ (getActionSetResolver (setActionResolver NewResolvers emptyActionResolver)
        "dashboards:read").getLast? = some "dashboards:read" := by
  have h := action_set_resolver_last_is_action
    (setActionResolver NewResolvers emptyActionResolver) "dashboards:read"
  exact ⟨h.2.2 emptyActionResolver rfl rfl, h.2.1⟩

end AccessControl


